import Mathlib

/-!
Verification of the `DeepLearning_Tutorial.ipynb` notebook
(Deep-Learning-for-Neuroscientists).

The notebook builds the same one-hidden-layer MLP three ways (NumPy matrix
math, the TensorFlow graph API, the Keras layer API), trains the TensorFlow
version by gradient descent, loads and normalizes MNIST, and reshapes data
for a recurrent network.  We embed the numeric computations over exact
rationals (`ℚ`): a NumPy 2-D float array of shape (m, n) becomes a function
`Fin m → Fin n → ℚ`, `np.dot` / `tf.matmul` become an explicit sum, and the
elementwise activation functions are transcribed from each library call.
Dynamically shaped arrays (where shape errors matter) are embedded as a
shape-carrying structure, with fallible operations returning `Option`.
-/

/-- Matrix over `ℚ`, the embedding of a 2-D NumPy/TensorFlow float array of
shape (m, n). -/
def Mat (m n : Nat) : Type := Fin m → Fin n → ℚ

/-- `np.dot(a, b)` / `tf.matmul(a, b)` for 2-D arrays: ordinary matrix
multiplication. -/
def matmulQ {m n p : Nat} (a : Mat m n) (b : Mat n p) : Mat m p :=
  fun i k => ∑ j, a i j * b j k

/-- The hand-written activation of the NumPy cell:
`def relu(x): return x * (x>0.)` — the boolean `x > 0.` casts to `1.0` or
`0.0` and multiplies the input elementwise. -/
def relu (x : ℚ) : ℚ := x * (if 0 < x then 1 else 0)

/-- TensorFlow's rectifier `tf.nn.relu`, defined as `max(x, 0)` elementwise. -/
def tfRelu (x : ℚ) : ℚ := max x 0

/-- Keras's built-in `relu` activation (the string `'relu'` passed to
`Dense`), defined as `max(x, 0)` elementwise. -/
def kerasRelu (x : ℚ) : ℚ := max x 0

/-- Elementwise application of a scalar function to a 2-D array
(NumPy broadcasting / TF elementwise op). -/
def emap {m n : Nat} (f : ℚ → ℚ) (a : Mat m n) : Mat m n :=
  fun i j => f (a i j)

/-- The NumPy cell's hidden layer: `h_np = relu(np.dot(x_np, W_h_np))`. -/
def h_np {b nx nh : Nat} (x : Mat b nx) (W_h : Mat nx nh) : Mat b nh :=
  emap relu (matmulQ x W_h)

/-- The NumPy cell's output layer: `y_np = np.dot(h_np, W_y_np)`. -/
def y_np {b nx nh ny : Nat} (x : Mat b nx) (W_h : Mat nx nh)
    (W_y : Mat nh ny) : Mat b ny :=
  matmulQ (h_np x W_h) W_y

/-- The TensorFlow cell's hidden node: `h = tf.nn.relu(tf.matmul(x, W_h))`,
where `W_h` is initialized from `W_h_np` by `tf.constant_initializer`. -/
def h_tf {b nx nh : Nat} (x : Mat b nx) (W_h : Mat nx nh) : Mat b nh :=
  emap tfRelu (matmulQ x W_h)

/-- The TensorFlow cell's output node: `y = tf.matmul(h, W_y)`; `sess.run(y)`
with `x` fed `x_np` returns this value. -/
def y_tf {b nx nh ny : Nat} (x : Mat b nx) (W_h : Mat nx nh)
    (W_y : Mat nh ny) : Mat b ny :=
  matmulQ (h_tf x W_h) W_y

/-- A Keras `Dense(units, use_bias=False)` layer with elementwise activation
`act` and kernel `W`: `output = act(dot(input, kernel))`. -/
def kerasDense {b n u : Nat} (act : ℚ → ℚ) (W : Mat n u) (input : Mat b n) :
    Mat b u :=
  emap act (matmulQ input W)

/-- The Keras cell's two-layer `Sequential` model with the weights set to
`W_h_np` and `W_y_np`: `Dense(n_h, activation='relu', use_bias=False)`
followed by `Dense(n_y, activation=None, use_bias=False)` (activation `None`
is the identity). -/
def kerasModel {b nx nh ny : Nat} (x : Mat b nx) (W_h : Mat nx nh)
    (W_y : Mat nh ny) : Mat b ny :=
  kerasDense id W_y (kerasDense kerasRelu W_h x)

/-- The hand-written `relu` agrees with `max (·) 0` on every rational. -/
theorem relu_eq_max (x : ℚ) : relu x = max x 0 := by
  unfold relu
  rcases le_or_lt x 0 with h | h
  · rw [if_neg (not_lt.mpr h), mul_zero, max_eq_right h]
  · rw [if_pos h, mul_one, max_eq_left h.le]

/-- C1: the NumPy, TensorFlow and Keras builds of the small MLP compute the
same function: for every batch `x` and shared weight matrices `W_h`, `W_y`,
all three return `relu(x . W_h) . W_y`, so their (exact-arithmetic) outputs
coincide. -/
theorem mlp_three_ways_agree {b nx nh ny : Nat} (x : Mat b nx)
    (W_h : Mat nx nh) (W_y : Mat nh ny) :
    y_np x W_h W_y = y_tf x W_h W_y ∧
    y_np x W_h W_y = kerasModel x W_h W_y := by
  have hrelu : h_np x W_h = h_tf x W_h := by
    funext i j
    simp only [h_np, h_tf, emap, relu_eq_max, tfRelu]
  constructor
  · simp only [y_np, y_tf, hrelu]
  · funext i k
    simp only [y_np, kerasModel, kerasDense, emap, id, hrelu, h_tf, tfRelu,
      kerasRelu]
    rfl

/-- The hand-written `relu` applied to a NumPy array: the elementwise
broadcast of `x * (x>0.)` over the array's entries (the array is viewed in
row-major flat order, which is what elementwise broadcasting acts on). -/
def npReluArr (xs : List ℚ) : List ℚ := xs.map relu

/-- `tf.nn.relu` applied elementwise to an array. -/
def tfReluArr (xs : List ℚ) : List ℚ := xs.map tfRelu

/-- C2: the notebook's activation is the elementwise rectifier: for every
input array, `relu(x)` has the same shape (length) as `x`, each output entry
is `max(entry, 0)`, and the hand-written function agrees entrywise with the
library `tf.nn.relu`. -/
theorem relu_elementwise (xs : List ℚ) :
    (npReluArr xs).length = xs.length ∧
    (∀ (i : Nat) (v : ℚ), xs[i]? = some v → (npReluArr xs)[i]? = some (max v 0)) ∧
    npReluArr xs = tfReluArr xs := by
  refine ⟨List.length_map _ _, ?_, ?_⟩
  · intro i v hv
    simp [npReluArr, List.getElem?_map, hv, relu_eq_max]
  · simp only [npReluArr, tfReluArr]
    exact List.map_congr_left fun v _ => by rw [relu_eq_max]; rfl

/-- Witness for `relu_elementwise` at the concrete array `[-1, 2]`. -/
theorem relu_elementwise_witness :
    ([(-1 : ℚ), 2])[0]? = some ((-1 : ℚ)) ∧
    (npReluArr [(-1 : ℚ), 2])[0]? = some (max (-1 : ℚ) 0) :=
  ⟨rfl, (relu_elementwise [(-1 : ℚ), 2]).2.1 0 (-1) rfl⟩

/-- The NumPy cell's loss `loss_np = np.mean((y_target_np - y_np)**2)`:
the mean of the squared entrywise differences (a sum over all `b * n`
entries divided by the entry count). -/
def mseLoss {b n : Nat} (y_target y : Mat b n) : ℚ :=
  (∑ i, ∑ k, (y_target i k - y i k) ^ 2) / (b * n)

/-- C9: the mean-squared-error loss is non-negative, and it is zero exactly
when prediction and target agree entrywise. -/
theorem mseLoss_nonneg_zero_iff {b n : Nat} (y_target y : Mat b n) :
    0 ≤ mseLoss y_target y ∧ (mseLoss y_target y = 0 ↔ y = y_target) := by
  have hsum : (0 : ℚ) ≤ ∑ i, ∑ k, (y_target i k - y i k) ^ 2 :=
    Finset.sum_nonneg fun i _ =>
      Finset.sum_nonneg fun k _ => sq_nonneg _
  refine ⟨div_nonneg hsum (by positivity), ?_, ?_⟩
  · intro h
    rcases Nat.eq_zero_or_pos b with hb | hb
    · subst hb; funext i; exact i.elim0
    rcases Nat.eq_zero_or_pos n with hn | hn
    · subst hn; funext i k; exact k.elim0
    have hden : ((b : ℚ) * n) ≠ 0 := by positivity
    have hS : (∑ i, ∑ k, (y_target i k - y i k) ^ 2) = 0 := by
      rcases div_eq_zero_iff.mp h with hS | hd
      · exact hS
      · exact absurd hd hden
    funext i k
    have h1 := (Finset.sum_eq_zero_iff_of_nonneg
      (fun i _ => Finset.sum_nonneg fun k _ => sq_nonneg _)).mp hS i
      (Finset.mem_univ i)
    have h2 := (Finset.sum_eq_zero_iff_of_nonneg
      (fun k _ => sq_nonneg _)).mp h1 k (Finset.mem_univ k)
    have := sq_eq_zero_iff.mp h2
    linarith [sub_eq_zero.mp this]
  · intro h
    subst h
    simp [mseLoss]

/-- The trainable parameters of the TensorFlow training cell: the two
`tf.get_variable` weight matrices `W_h` and `W_y`. -/
structure MLPParams (nx nh ny : Nat) where
  W_h : Mat nx nh
  W_y : Mat nh ny

/-- The loss node of the training cell,
`loss = tf.reduce_mean((y_target - y)**2)`, evaluated with placeholder `x`
fed `x_np` and `y_target` fed `y_target_np`. -/
def tfLoss {b nx nh ny : Nat} (x : Mat b nx) (y_target : Mat b ny)
    (p : MLPParams nx nh ny) : ℚ :=
  mseLoss y_target (y_tf x p.W_h p.W_y)

/-- Backpropagated derivative of the loss through the output node:
`dL/dy[i,k] = (2 / (b*ny)) * (y[i,k] - y_target[i,k])` (what TF's autodiff
produces for `reduce_mean((y_target - y)**2)`). -/
def dLdy {b nx nh ny : Nat} (x : Mat b nx) (y_target : Mat b ny)
    (p : MLPParams nx nh ny) : Mat b ny :=
  fun i k => 2 / (b * ny : ℚ) * (y_tf x p.W_h p.W_y i k - y_target i k)

/-- Gradient of the loss with respect to `W_y` (from `y = tf.matmul(h, W_y)`):
`dL/dW_y[j,k] = sum_i h[i,j] * dL/dy[i,k]`. -/
def gradW_y {b nx nh ny : Nat} (x : Mat b nx) (y_target : Mat b ny)
    (p : MLPParams nx nh ny) : Mat nh ny :=
  fun j k => ∑ i, h_tf x p.W_h i j * dLdy x y_target p i k

/-- Backpropagated derivative of the loss through the hidden node:
`dL/dh[i,j] = sum_k dL/dy[i,k] * W_y[j,k]`. -/
def dLdh {b nx nh ny : Nat} (x : Mat b nx) (y_target : Mat b ny)
    (p : MLPParams nx nh ny) : Mat b nh :=
  fun i j => ∑ k, dLdy x y_target p i k * p.W_y j k

/-- TF's gradient of `tf.nn.relu`: pass-through where the pre-activation is
positive, zero elsewhere. -/
def reluGrad (z : ℚ) : ℚ := if 0 < z then 1 else 0

/-- Gradient of the loss with respect to `W_h` (through
`h = tf.nn.relu(tf.matmul(x, W_h))`):
`dL/dW_h[q,j] = sum_i x[i,q] * relu'(z[i,j]) * dL/dh[i,j]` where
`z = tf.matmul(x, W_h)`. -/
def gradW_h {b nx nh ny : Nat} (x : Mat b nx) (y_target : Mat b ny)
    (p : MLPParams nx nh ny) : Mat nx nh :=
  fun q j => ∑ i, x i q * (reluGrad (matmulQ x p.W_h i j) * dLdh x y_target p i j)

/-- One run of `train_op` built by
`tf.train.GradientDescentOptimizer(learning_rate=0.01).minimize(loss)`:
each trainable variable moves against its gradient,
`theta <- theta - alpha * dL/dtheta`. -/
def gdStep {b nx nh ny : Nat} (α : ℚ) (x : Mat b nx) (y_target : Mat b ny)
    (p : MLPParams nx nh ny) : MLPParams nx nh ny :=
  ⟨fun q j => p.W_h q j - α * gradW_h x y_target p q j,
   fun j k => p.W_y j k - α * gradW_y x y_target p j k⟩

/-- The variable values after `n` runs of `train_op` from initial values
`p0`. -/
def paramsAfter {b nx nh ny : Nat} (α : ℚ) (x : Mat b nx)
    (y_target : Mat b ny) (p0 : MLPParams nx nh ny) : Nat → MLPParams nx nh ny
  | 0 => p0
  | n + 1 => gdStep α x y_target (paramsAfter α x y_target p0 n)

/-- The losses recorded by `n` consecutive loop iterations starting at
parameters `p`: each `sess.run([train_op, loss], ...)` fetches the loss at
the pre-update parameter values and then applies the update. -/
def lossesFrom {b nx nh ny : Nat} (α : ℚ) (x : Mat b nx)
    (y_target : Mat b ny) (p : MLPParams nx nh ny) : Nat → List ℚ
  | 0 => []
  | n + 1 => tfLoss x y_target p :: lossesFrom α x y_target (gdStep α x y_target p) n

/-- The body of the training loop
`for step in range(10): _, loss_val = sess.run([train_op, loss], ...);
if step % 1 == 0: steps.append(step); losses.append(loss_val)`,
folded over the remaining step indices with the accumulated `steps` and
`losses` lists. -/
def trainLoopAux {b nx nh ny : Nat} (α : ℚ) (x : Mat b nx)
    (y_target : Mat b ny) :
    List Nat → MLPParams nx nh ny → List Nat → List ℚ →
      MLPParams nx nh ny × List Nat × List ℚ
  | [], p, steps, losses => (p, steps, losses)
  | s :: rest, p, steps, losses =>
      trainLoopAux α x y_target rest (gdStep α x y_target p)
        (if s % 1 = 0 then steps ++ [s] else steps)
        (if s % 1 = 0 then losses ++ [tfLoss x y_target p] else losses)

/-- The whole training cell: learning rate `0.01`, loop over
`range(10)`, `steps` and `losses` starting empty. -/
def trainTFCell {b nx nh ny : Nat} (x : Mat b nx) (y_target : Mat b ny)
    (p0 : MLPParams nx nh ny) : MLPParams nx nh ny × List Nat × List ℚ :=
  trainLoopAux (1/100) x y_target (List.range 10) p0 [] []

theorem paramsAfter_succ_shift {b nx nh ny : Nat} (α : ℚ) (x : Mat b nx)
    (y_target : Mat b ny) (p : MLPParams nx nh ny) (n : Nat) :
    paramsAfter α x y_target p (n + 1) =
      paramsAfter α x y_target (gdStep α x y_target p) n := by
  induction n generalizing p with
  | zero => rfl
  | succ n ih =>
      rw [show n + 1 + 1 = (n + 1) + 1 from rfl]
      rw [paramsAfter, ih, paramsAfter]

theorem lossesFrom_length {b nx nh ny : Nat} (α : ℚ) (x : Mat b nx)
    (y_target : Mat b ny) (n : Nat) (p : MLPParams nx nh ny) :
    (lossesFrom α x y_target p n).length = n := by
  induction n generalizing p with
  | zero => rfl
  | succ n ih => simp [lossesFrom, ih]

theorem lossesFrom_getElem {b nx nh ny : Nat} (α : ℚ) (x : Mat b nx)
    (y_target : Mat b ny) (n : Nat) :
    ∀ (p : MLPParams nx nh ny) (i : Nat), i < n →
      (lossesFrom α x y_target p n)[i]? =
        some (tfLoss x y_target (paramsAfter α x y_target p i)) := by
  induction n with
  | zero => intro p i h; omega
  | succ n ih =>
      intro p i h
      cases i with
      | zero => simp [lossesFrom, paramsAfter]
      | succ i =>
          rw [lossesFrom, List.getElem?_cons_succ, ih _ i (by omega),
            paramsAfter_succ_shift]

theorem trainLoopAux_eq {b nx nh ny : Nat} (α : ℚ) (x : Mat b nx)
    (y_target : Mat b ny) (l : List Nat) :
    ∀ (p : MLPParams nx nh ny) (steps : List Nat) (losses : List ℚ),
      trainLoopAux α x y_target l p steps losses =
        (paramsAfter α x y_target p l.length, steps ++ l,
          losses ++ lossesFrom α x y_target p l.length) := by
  induction l with
  | nil => intro p steps losses; simp [trainLoopAux, paramsAfter, lossesFrom]
  | cons s rest ih =>
      intro p steps losses
      rw [trainLoopAux, if_pos (Nat.mod_one s), if_pos (Nat.mod_one s), ih,
        List.length_cons, paramsAfter_succ_shift, lossesFrom]
      simp

theorem sum_mul_swap {b nh ny : Nat} (c : ℚ) (H : Mat b nh) (D : Mat b ny)
    (E : Mat nh ny) :
    ∑ j, ∑ k, (∑ i, H i j * (c * D i k)) * E j k =
      c * ∑ i, ∑ k, D i k * matmulQ H E i k := by
  calc ∑ j, ∑ k, (∑ i, H i j * (c * D i k)) * E j k
      = ∑ j, ∑ k, ∑ i, H i j * (c * D i k) * E j k :=
        Finset.sum_congr rfl fun j _ => Finset.sum_congr rfl fun k _ =>
          Finset.sum_mul _ _ _
    _ = ∑ j, ∑ i, ∑ k, H i j * (c * D i k) * E j k :=
        Finset.sum_congr rfl fun j _ => Finset.sum_comm
    _ = ∑ i, ∑ j, ∑ k, H i j * (c * D i k) * E j k := Finset.sum_comm
    _ = ∑ i, ∑ k, ∑ j, H i j * (c * D i k) * E j k :=
        Finset.sum_congr rfl fun i _ => Finset.sum_comm
    _ = ∑ i, ∑ k, ∑ j, c * (D i k * (H i j * E j k)) :=
        Finset.sum_congr rfl fun i _ => Finset.sum_congr rfl fun k _ =>
          Finset.sum_congr rfl fun j _ => by ring
    _ = c * ∑ i, ∑ k, D i k * matmulQ H E i k := by
        rw [Finset.mul_sum]
        refine Finset.sum_congr rfl fun i _ => ?_
        rw [Finset.mul_sum]
        refine Finset.sum_congr rfl fun k _ => ?_
        rw [show matmulQ H E i k = ∑ j, H i j * E j k from rfl,
          Finset.mul_sum, Finset.mul_sum]

theorem mse_matmul_expand {b nh ny : Nat} (H : Mat b nh) (y_target : Mat b ny)
    (W E : Mat nh ny) (t : ℚ) :
    mseLoss y_target (matmulQ H (fun j k => W j k + t * E j k)) =
      mseLoss y_target (matmulQ H W)
        + t * (∑ j, ∑ k,
            (∑ i, H i j * (2 / (b * ny : ℚ)
              * (matmulQ H W i k - y_target i k))) * E j k)
        + t ^ 2 * mseLoss (fun _ _ => 0) (matmulQ H E) := by
  have hlin : ∀ (i : Fin b) (k : Fin ny),
      matmulQ H (fun j k => W j k + t * E j k) i k =
        matmulQ H W i k + t * matmulQ H E i k := by
    intro i k
    calc ∑ j, H i j * (W j k + t * E j k)
        = ∑ j, (H i j * W j k + t * (H i j * E j k)) :=
          Finset.sum_congr rfl fun j _ => by ring
      _ = (∑ j, H i j * W j k) + ∑ j, t * (H i j * E j k) :=
          Finset.sum_add_distrib
      _ = matmulQ H W i k + t * matmulQ H E i k := by
          rw [← Finset.mul_sum]; rfl
  have hnum : (∑ i, ∑ k,
        (y_target i k - matmulQ H (fun j k => W j k + t * E j k) i k) ^ 2) =
      (∑ i, ∑ k, (y_target i k - matmulQ H W i k) ^ 2)
        + (2 * t) * (∑ i, ∑ k,
            (matmulQ H W i k - y_target i k) * matmulQ H E i k)
        + t ^ 2 * (∑ i, ∑ k, ((0 : ℚ) - matmulQ H E i k) ^ 2) := by
    calc (∑ i, ∑ k,
          (y_target i k - matmulQ H (fun j k => W j k + t * E j k) i k) ^ 2)
        = ∑ i, ∑ k, ((y_target i k - matmulQ H W i k) ^ 2
            + (2 * t) * ((matmulQ H W i k - y_target i k) * matmulQ H E i k)
            + t ^ 2 * ((0 : ℚ) - matmulQ H E i k) ^ 2) :=
          Finset.sum_congr rfl fun i _ => Finset.sum_congr rfl fun k _ => by
            rw [hlin i k]; ring
      _ = _ := by
          simp only [Finset.sum_add_distrib, Finset.mul_sum]
  have hden : ∀ (A : ℚ), A / (b * ny : ℚ) = A * (1 / (b * ny : ℚ)) := by
    intro A; rw [mul_one_div]
  rw [show mseLoss y_target (matmulQ H (fun j k => W j k + t * E j k)) =
      (∑ i, ∑ k, (y_target i k
        - matmulQ H (fun j k => W j k + t * E j k) i k) ^ 2) / (b * ny : ℚ)
    from rfl]
  rw [hnum, sum_mul_swap]
  rw [show mseLoss y_target (matmulQ H W) =
      (∑ i, ∑ k, (y_target i k - matmulQ H W i k) ^ 2) / (b * ny : ℚ)
    from rfl]
  rw [show mseLoss (fun _ _ => (0 : ℚ)) (matmulQ H E) =
      (∑ i, ∑ k, ((0 : ℚ) - matmulQ H E i k) ^ 2) / (b * ny : ℚ) from rfl]
  rw [hden, hden, hden]
  ring

/-- C3: each iteration of the TensorFlow training loop performs one
gradient-descent update `theta <- theta - 0.01 * dL/dtheta` on the two
weight matrices, where `L` is the mean squared error; the loop runs exactly
10 steps, records the (pre-update) loss at every step, and afterwards
`steps = [0, ..., 9]` and `losses` holds exactly 10 values in step order.
The last conjunct certifies that `gradW_y` really is the derivative of the
loss in the `W_y` directions (in which the loss is exactly quadratic):
moving by `-alpha * dL/dW_y` changes the loss by
`-alpha * |dL/dW_y|^2 + O(alpha^2)`, the locally decreasing direction. -/
theorem tf_gradient_descent_loop {b nx nh ny : Nat} (x : Mat b nx)
    (y_target : Mat b ny) (p0 : MLPParams nx nh ny) :
    (trainTFCell x y_target p0).2.1 = List.range 10 ∧
    (trainTFCell x y_target p0).2.2.length = 10 ∧
    (∀ i : Nat, i < 10 →
      (trainTFCell x y_target p0).2.2[i]? =
        some (tfLoss x y_target (paramsAfter (1/100) x y_target p0 i))) ∧
    (trainTFCell x y_target p0).1 = paramsAfter (1/100) x y_target p0 10 ∧
    (∀ n : Nat,
      (paramsAfter (1/100) x y_target p0 (n+1)).W_h = (fun q j =>
        (paramsAfter (1/100) x y_target p0 n).W_h q j
          - 1/100 * gradW_h x y_target (paramsAfter (1/100) x y_target p0 n) q j) ∧
      (paramsAfter (1/100) x y_target p0 (n+1)).W_y = (fun j k =>
        (paramsAfter (1/100) x y_target p0 n).W_y j k
          - 1/100 * gradW_y x y_target (paramsAfter (1/100) x y_target p0 n) j k)) ∧
    (∀ (p : MLPParams nx nh ny) (E : Mat nh ny) (t : ℚ),
      tfLoss x y_target ⟨p.W_h, fun j k => p.W_y j k + t * E j k⟩ =
        tfLoss x y_target p
          + t * (∑ j, ∑ k, gradW_y x y_target p j k * E j k)
          + t ^ 2 * mseLoss (fun _ _ => 0) (matmulQ (h_tf x p.W_h) E)) := by
  have hcell := trainLoopAux_eq (1/100) x y_target (List.range 10) p0 [] []
  rw [List.length_range] at hcell
  refine ⟨?_, ?_, ?_, ?_, ?_, ?_⟩
  · rw [trainTFCell, hcell]
    rfl
  · rw [trainTFCell, hcell]
    exact lossesFrom_length (1/100) x y_target 10 p0
  · intro i hi
    rw [trainTFCell, hcell]
    exact lossesFrom_getElem (1/100) x y_target 10 p0 i hi
  · rw [trainTFCell, hcell]
  · intro n
    exact ⟨rfl, rfl⟩
  · intro p E t
    exact mse_matmul_expand (h_tf x p.W_h) y_target p.W_y E t

/-- A concrete 1×1 all-ones array, used to instantiate witnesses. -/
def matOne : Mat 1 1 := fun _ _ => 1

/-- A concrete 1×1 all-zeros array, used to instantiate witnesses. -/
def matZero : Mat 1 1 := fun _ _ => 0

/-- Concrete initial weights for the witness instantiations. -/
def pInit : MLPParams 1 1 1 := ⟨matOne, matOne⟩

/-- Witness for `tf_gradient_descent_loop` at a concrete 1×1 instance. -/
theorem tf_gradient_descent_loop_witness :
    (trainTFCell matOne matZero pInit).2.1 = List.range 10 ∧
    (trainTFCell matOne matZero pInit).2.2[0]? =
      some (tfLoss matOne matZero (paramsAfter (1/100) matOne matZero pInit 0)) := by
  obtain ⟨h1, _, h3, _⟩ := tf_gradient_descent_loop matOne matZero pInit
  exact ⟨h1, h3 0 (by norm_num)⟩

/-- A 2-D NumPy array with dynamic shape: the embedding used where shape
compatibility itself is the property under study.  `entry i j` is only
meaningful for `i < rows`, `j < cols`. -/
structure PyArr where
  rows : Nat
  cols : Nat
  entry : Nat → Nat → ℚ

/-- `np.dot` on dynamically shaped 2-D arrays: defined when the inner
dimensions agree, a library shape error (`none`) otherwise. -/
def pyDot (a b : PyArr) : Option PyArr :=
  if a.cols = b.rows then
    some ⟨a.rows, b.cols,
      fun i k => ∑ j ∈ Finset.range a.cols, a.entry i j * b.entry j k⟩
  else none

/-- The hand-written `relu` broadcast over a dynamically shaped array. -/
def pyRelu (a : PyArr) : PyArr :=
  ⟨a.rows, a.cols, fun i j => relu (a.entry i j)⟩

/-- Elementwise subtraction `a - b`; a library shape error when the shapes
disagree. -/
def pySub (a b : PyArr) : Option PyArr :=
  if a.rows = b.rows ∧ a.cols = b.cols then
    some ⟨a.rows, a.cols, fun i j => a.entry i j - b.entry i j⟩
  else none

/-- Elementwise square `a ** 2`. -/
def pySquare (a : PyArr) : PyArr :=
  ⟨a.rows, a.cols, fun i j => a.entry i j ^ 2⟩

/-- `np.mean` over all entries: a scalar. -/
def pyMean (a : PyArr) : ℚ :=
  (∑ i ∈ Finset.range a.rows, ∑ j ∈ Finset.range a.cols, a.entry i j)
    / (a.rows * a.cols)

/-- The NumPy cell's whole computation with its shape checks:
`h_np = relu(np.dot(x_np, W_h_np))`, `y_np = np.dot(h_np, W_y_np)`,
`loss_np = np.mean((y_target_np - y_np)**2)`; any shape mismatch surfaces
as `none`. -/
def npCellPipeline (x W_h W_y y_t : PyArr) : Option (PyArr × PyArr × ℚ) := do
  let z ← pyDot x W_h
  let h := pyRelu z
  let y ← pyDot h W_y
  let d ← pySub y_t y
  return (h, y, pyMean (pySquare d))

/-- C4: with the notebook's hyperparameters `batch_size = 5`, `n_x = 10`,
`n_h = 100`, `n_y = 3`, every matrix product in the manual MLP pipeline is
well-formed (the pipeline returns `some`), the hidden activation has shape
(5, 100), the output has shape (5, 3), and the loss is a scalar (`ℚ`). -/
theorem np_mlp_shapes (x W_h W_y y_t : PyArr)
    (hx1 : x.rows = 5) (hx2 : x.cols = 10)
    (hwh1 : W_h.rows = 10) (hwh2 : W_h.cols = 100)
    (hwy1 : W_y.rows = 100) (hwy2 : W_y.cols = 3)
    (ht1 : y_t.rows = 5) (ht2 : y_t.cols = 3) :
    ∃ (h y : PyArr) (loss : ℚ),
      npCellPipeline x W_h W_y y_t = some (h, y, loss) ∧
      h.rows = 5 ∧ h.cols = 100 ∧ y.rows = 5 ∧ y.cols = 3 := by
  simp only [npCellPipeline, pyDot, pyRelu, pySub, pySquare, bind,
    Option.bind, hx1, hx2, hwh1, hwh2, hwy1, hwy2, ht1, ht2, if_pos,
    and_self, reduceIte]
  exact ⟨_, _, _, rfl, rfl, rfl, rfl, rfl⟩

/-- A concrete all-zeros array of shape (r, c). -/
def pyZeros (r c : Nat) : PyArr := ⟨r, c, fun _ _ => 0⟩

/-- Witness for `np_mlp_shapes` at concrete all-zeros arrays of the
notebook's shapes. -/
theorem np_mlp_shapes_witness :
    ∃ (h y : PyArr) (loss : ℚ),
      npCellPipeline (pyZeros 5 10) (pyZeros 10 100) (pyZeros 100 3)
          (pyZeros 5 3) = some (h, y, loss) ∧
      h.rows = 5 ∧ h.cols = 100 ∧ y.rows = 5 ∧ y.cols = 3 :=
  np_mlp_shapes _ _ _ _ rfl rfl rfl rfl rfl rfl rfl rfl

/-- The notebook global variables bound by the NumPy cell that are in scope
when the TensorFlow MLP cell runs.  `y_target_np`, `loss_np` and `h_np_v`
are bound by the NumPy cell but not read by the TensorFlow MLP cell. -/
structure TFGlobals where
  batch_size : Nat
  n_x : Nat
  n_h : Nat
  n_y : Nat
  x_np : PyArr
  W_h_np : PyArr
  W_y_np : PyArr
  y_np : PyArr
  h_np_v : PyArr
  y_target_np : PyArr
  loss_np : ℚ

/-- Shape check performed by the library when an array is bound to a
typed slot (`tf.constant_initializer` against a `tf.get_variable` shape, or
`feed_dict` against a placeholder shape). -/
def checkShape (a : PyArr) (r c : Nat) : Option PyArr :=
  if a.rows = r ∧ a.cols = c then some a else none

/-- `tf.nn.relu` broadcast over a dynamically shaped array. -/
def pyTfRelu (a : PyArr) : PyArr :=
  ⟨a.rows, a.cols, fun i j => tfRelu (a.entry i j)⟩

/-- The observable result of the TensorFlow MLP cell: the printed static
shape of the `y` tensor, the printed `y_val`, and the data handed to
`plt.scatter(y_val, y_np)`. -/
structure TFCellOut where
  y_desc : Nat × Nat
  y_val : PyArr
  scatter : PyArr × PyArr

/-- The TensorFlow MLP cell: placeholder `x` of shape `(batch_size, n_x)`,
variables `W_h`, `W_y` initialized from `W_h_np`, `W_y_np` against the
declared shapes `(n_x, n_h)`, `(n_h, n_y)`,
`h = tf.nn.relu(tf.matmul(x, W_h))`, `y = tf.matmul(h, W_y)`,
`y_val = sess.run(y, feed_dict={x: x_np})`, then
`print(y)`, `print(y_val)`, `plt.scatter(y_val, y_np)`. -/
def tfMlpCell (g : TFGlobals) : Option TFCellOut := do
  let W_h ← checkShape g.W_h_np g.n_x g.n_h
  let W_y ← checkShape g.W_y_np g.n_h g.n_y
  let x ← checkShape g.x_np g.batch_size g.n_x
  let h := pyTfRelu ⟨g.batch_size, g.n_h,
    fun i j => ∑ q ∈ Finset.range g.n_x, x.entry i q * W_h.entry q j⟩
  let y_val : PyArr := ⟨g.batch_size, g.n_y,
    fun i k => ∑ j ∈ Finset.range g.n_h, h.entry i j * W_y.entry j k⟩
  return ⟨(g.batch_size, g.n_y), y_val, (y_val, g.y_np)⟩

/-- C5 (amended): the TensorFlow MLP cell depends on the state left by
earlier cells only through `batch_size`, `n_x`, `n_h`, `n_y`, `x_np`,
`W_h_np`, `W_y_np` AND `y_np` (the last is read by the final
`plt.scatter(y_val, y_np)`): two runs agreeing on those eight variables
produce identical cell results, whatever the other globals
(`y_target_np`, `loss_np`, `h_np_v`) hold. -/
theorem tf_cell_two_run (g1 g2 : TFGlobals)
    (hb : g1.batch_size = g2.batch_size) (hx : g1.n_x = g2.n_x)
    (hh : g1.n_h = g2.n_h) (hy : g1.n_y = g2.n_y)
    (hxnp : g1.x_np = g2.x_np) (hwh : g1.W_h_np = g2.W_h_np)
    (hwy : g1.W_y_np = g2.W_y_np) (hynp : g1.y_np = g2.y_np) :
    tfMlpCell g1 = tfMlpCell g2 := by
  unfold tfMlpCell
  rw [hb, hx, hh, hy, hxnp, hwh, hwy, hynp]

/-- A concrete 1×1 constant array. -/
def pyConst (v : ℚ) : PyArr := ⟨1, 1, fun _ _ => v⟩

/-- First run's globals for the C5 counterexample: all hyperparameters 1,
all arrays the 1×1 array holding 1, except `y_np` which holds 0. -/
def cexG1 : TFGlobals :=
  ⟨1, 1, 1, 1, pyConst 1, pyConst 1, pyConst 1, pyConst 0, pyConst 1,
    pyConst 1, 0⟩

/-- Second run's globals: same as `cexG1` except `y_np` holds 1. -/
def cexG2 : TFGlobals :=
  ⟨1, 1, 1, 1, pyConst 1, pyConst 1, pyConst 1, pyConst 1, pyConst 1,
    pyConst 1, 0⟩

/-- C5 counterexample: the claim's variable list is too small.  `cexG1` and
`cexG2` agree on `batch_size`, `n_x`, `n_h`, `n_y`, `x_np`, `W_h_np` and
`W_y_np` (the seven variables the claim lists) yet the TensorFlow MLP
cell's results differ, because `plt.scatter(y_val, y_np)` also reads
`y_np`. -/
theorem tf_cell_two_run_counterexample :
    cexG1.batch_size = cexG2.batch_size ∧ cexG1.n_x = cexG2.n_x ∧
    cexG1.n_h = cexG2.n_h ∧ cexG1.n_y = cexG2.n_y ∧
    cexG1.x_np = cexG2.x_np ∧ cexG1.W_h_np = cexG2.W_h_np ∧
    cexG1.W_y_np = cexG2.W_y_np ∧
    tfMlpCell cexG1 ≠ tfMlpCell cexG2 := by
  refine ⟨rfl, rfl, rfl, rfl, rfl, rfl, rfl, ?_⟩
  intro h
  have h' := congrArg (Option.map fun r => (r.scatter.2.entry 0 0)) h
  simp only [tfMlpCell, cexG1, cexG2, checkShape, pyConst, pyTfRelu,
    and_self, reduceIte, bind, Option.bind, Option.map, if_pos] at h'
  exact absurd h' (by norm_num)

/-- Third globals for the `tf_cell_two_run` witness: same as `cexG1` except
the unread variable `y_target_np` differs. -/
def cexG3 : TFGlobals :=
  ⟨1, 1, 1, 1, pyConst 1, pyConst 1, pyConst 1, pyConst 0, pyConst 1,
    pyConst 5, 0⟩

/-- Witness for `tf_cell_two_run`: two concrete global states differing
only in the unread `y_target_np` give identical cell results. -/
theorem tf_cell_two_run_witness : tfMlpCell cexG1 = tfMlpCell cexG3 :=
  tf_cell_two_run cexG1 cexG3 rfl rfl rfl rfl rfl rfl rfl rfl

/-- An n-D NumPy array as its shape and row-major flat data. -/
structure NpData where
  shape : List Nat
  data : List ℚ

/-- The normalization `x / 255.0` applied to a dataset array. -/
def normalizePixels (a : NpData) : NpData :=
  ⟨a.shape, a.data.map (fun p => p / 255)⟩

/-- The dataset variables the MNIST cell binds.  Before the cell runs they
may be unbound (`none`). -/
structure MnistVars where
  x_train : Option NpData
  y_train : Option NpData
  x_test : Option NpData
  y_test : Option NpData

/-- The MNIST cell
`(x_train, y_train), (x_test, y_test) = mnist.load_data()` followed by
`x_train, x_test = x_train / 255.0, x_test / 255.0`.  The loader is an
external library call that either returns the four arrays or raises; the
cell has no try/except, so a loader error propagates unchanged and, the
tuple assignment never having happened, the four variables keep their prior
bindings. -/
def mnistCell (load : Except String ((NpData × NpData) × NpData × NpData))
    (s : MnistVars) : Except String Unit × MnistVars :=
  match load with
  | Except.error e => (Except.error e, s)
  | Except.ok ⟨⟨xtr, ytr⟩, xte, yte⟩ =>
      (Except.ok (),
        ⟨some (normalizePixels xtr), some ytr,
          some (normalizePixels xte), some yte⟩)

/-- The training-loop cell's loop with a fallible `sess.run`: each iteration
runs `sess.run([train_op, loss], ...)` (which may raise a library error) and
then appends to `steps` and `losses`.  No try/except: the first error stops
the cell, keeping only the appends completed before it. -/
def tfTrainLoopE (runStep : Nat → Except String ℚ) :
    List Nat → List Nat → List ℚ → Except String Unit × List Nat × List ℚ
  | [], steps, losses => (Except.ok (), steps, losses)
  | s :: rest, steps, losses =>
      match runStep s with
      | Except.error e => (Except.error e, steps, losses)
      | Except.ok l =>
          tfTrainLoopE runStep rest
            (if s % 1 = 0 then steps ++ [s] else steps)
            (if s % 1 = 0 then losses ++ [l] else losses)

/-- The training-loop cell: loop over `range(10)` with empty initial
`steps` and `losses`. -/
def tfTrainCellE (runStep : Nat → Except String ℚ) :
    Except String Unit × List Nat × List ℚ :=
  tfTrainLoopE runStep (List.range 10) [] []

theorem tfTrainLoopE_ok (runStep : Nat → Except String ℚ) (f : Nat → ℚ) :
    ∀ (l : List Nat) (steps : List Nat) (losses : List ℚ),
      (∀ s ∈ l, runStep s = Except.ok (f s)) →
      tfTrainLoopE runStep l steps losses =
        (Except.ok (), steps ++ l, losses ++ l.map f) := by
  intro l
  induction l with
  | nil => intro steps losses _; simp [tfTrainLoopE]
  | cons s rest ih =>
      intro steps losses hok
      rw [tfTrainLoopE, hok s (List.mem_cons_self s rest)]
      simp only [Nat.mod_one, reduceIte]
      rw [ih _ _ (fun t ht => hok t (List.mem_cons_of_mem s ht))]
      simp

theorem tfTrainLoopE_err (runStep : Nat → Except String ℚ) (f : Nat → ℚ)
    (k : Nat) (e : String) :
    ∀ (l1 l2 : List Nat) (steps : List Nat) (losses : List ℚ),
      (∀ s ∈ l1, runStep s = Except.ok (f s)) →
      runStep k = Except.error e →
      tfTrainLoopE runStep (l1 ++ k :: l2) steps losses =
        (Except.error e, steps ++ l1, losses ++ l1.map f) := by
  intro l1
  induction l1 with
  | nil =>
      intro l2 steps losses _ herr
      rw [List.nil_append, tfTrainLoopE, herr]
      simp
  | cons s rest ih =>
      intro l2 steps losses hok herr
      rw [List.cons_append, tfTrainLoopE, hok s (List.mem_cons_self s rest)]
      simp only [Nat.mod_one, reduceIte]
      rw [ih _ _ _ (fun t ht => hok t (List.mem_cons_of_mem s ht)) herr]
      simp

theorem range_split (n k : Nat) (h : k < n) :
    ∃ rest, List.range n = List.range k ++ k :: rest := by
  induction n with
  | zero => omega
  | succ m ih =>
      rcases Nat.lt_or_ge k m with hk | hk
      · obtain ⟨rest, hrest⟩ := ih hk
        exact ⟨rest ++ [m], by
          rw [List.range_succ, hrest]
          simp⟩
      · have : k = m := by omega
        subst this
        exact ⟨[], by rw [List.range_succ]⟩

/-- C6: the notebook has no validation, retry or recovery logic, so a cell
raises exactly when one of its library calls raises, with the error passed
through unchanged, and a failing cell changes no notebook variable beyond
the assignments completed before the failure.  First conjunct: the MNIST
cell errors iff the dataset loader errors (same error), and on a loader
error the four dataset variables keep their prior values.  Second conjunct:
the training-loop cell succeeds when every `sess.run` succeeds; if the
first failing `sess.run` is at step `k`, the cell propagates that error and
`steps`/`losses` hold exactly the `k` appends completed before it. -/
theorem notebook_error_propagation :
    (∀ (load : Except String ((NpData × NpData) × NpData × NpData))
        (s : MnistVars) (e : String),
      ((mnistCell load s).1 = Except.error e ↔ load = Except.error e) ∧
      (load = Except.error e → (mnistCell load s).2 = s)) ∧
    (∀ (runStep : Nat → Except String ℚ) (f : Nat → ℚ),
      ((∀ s, s < 10 → runStep s = Except.ok (f s)) →
        tfTrainCellE runStep =
          (Except.ok (), List.range 10, (List.range 10).map f)) ∧
      (∀ (k : Nat) (e : String), k < 10 →
        (∀ s, s < k → runStep s = Except.ok (f s)) →
        runStep k = Except.error e →
        tfTrainCellE runStep =
          (Except.error e, List.range k, (List.range k).map f))) := by
  constructor
  · intro load s e
    constructor
    · cases load with
      | error e' =>
          simp [mnistCell]
      | ok v =>
          obtain ⟨⟨xtr, ytr⟩, xte, yte⟩ := v
          simp [mnistCell]
    · intro he
      subst he
      rfl
  · intro runStep f
    constructor
    · intro hok
      rw [tfTrainCellE,
        tfTrainLoopE_ok runStep f (List.range 10) [] []
          (fun s hs => hok s (List.mem_range.mp hs))]
      simp
    · intro k e hk hok herr
      obtain ⟨rest, hsplit⟩ := range_split 10 k hk
      rw [tfTrainCellE, hsplit,
        tfTrainLoopE_err runStep f k e (List.range k) rest [] []
          (fun s hs => hok s (List.mem_range.mp hs)) herr]
      simp

/-- Witness for `notebook_error_propagation`: a concrete failing loader
leaves concrete prior bindings unchanged, and a concrete `sess.run` that
fails at step 3 yields `steps = [0, 1, 2]`. -/
theorem notebook_error_propagation_witness :
    (mnistCell (Except.error "load failed") ⟨none, none, none, none⟩).2 =
      (⟨none, none, none, none⟩ : MnistVars) ∧
    tfTrainCellE (fun s => if s < 3 then Except.ok 0 else
        Except.error "run failed") =
      (Except.error "run failed", List.range 3, (List.range 3).map fun _ => 0) := by
  constructor
  · exact (notebook_error_propagation.1 (Except.error "load failed")
      ⟨none, none, none, none⟩ "load failed").2 rfl
  · exact (notebook_error_propagation.2
      (fun s => if s < 3 then Except.ok 0 else Except.error "run failed")
      (fun _ => 0)).2 3 "run failed" (by norm_num)
      (fun s hs => by rw [if_pos hs]) (by norm_num)

/-- A session lifecycle event: `tf.Session()` acquires, `sess.close()` (or a
with-block exit) releases.  Sessions are numbered in order of creation
within a cell. -/
inductive SessEvent where
  | acquire : Nat → SessEvent
  | release : Nat → SessEvent

/-- The sessions still open after a sequence of events. -/
def openSessions (evs : List SessEvent) : List Nat :=
  evs.foldl (fun acc ev =>
    match ev with
    | SessEvent.acquire n => n :: acc
    | SessEvent.release n => acc.erase n) []

/-- A `with tf.Session() as sess:` block: the session is acquired on entry
and released on exit, around the block's own events. -/
def withSession (n : Nat) (body : List SessEvent) : List SessEvent :=
  SessEvent.acquire n :: body ++ [SessEvent.release n]

/-- The session events of the TensorFlow MLP cell:
`sess = tf.Session()` ... `sess.close()` in the same cell. -/
def tfMlpCellSessions : List SessEvent :=
  [SessEvent.acquire 0, SessEvent.release 0]

/-- The session events of the TensorFlow training cell: an explicit
`sess = tf.Session()` closed by `sess.close()` in the same cell, then a
`with tf.Session() as sess:` block evaluating the loss, then a
`with tf.Session() as sess:` block running the training loop. -/
def tfTrainCellSessions : List SessEvent :=
  [SessEvent.acquire 0, SessEvent.release 0] ++
    withSession 1 [] ++ withSession 2 []

/-- C7: every session the notebook opens is closed in the same cell — each
explicit `tf.Session()` is paired with `sess.close()`, every other session
lives in a with-block — so at the end of both TensorFlow cells no session
opened by the cell remains open.  The last conjunct is the general
with-block shape: a with-block adds exactly an acquire before and a release
after its body's events. -/
theorem sessions_closed_at_cell_end :
    openSessions tfMlpCellSessions = [] ∧
    openSessions tfTrainCellSessions = [] ∧
    (∀ (n : Nat) (body : List SessEvent),
      withSession n body =
        SessEvent.acquire n :: body ++ [SessEvent.release n]) := by
  refine ⟨rfl, rfl, fun n body => rfl⟩

/-- `x.reshape((r, -1, 1))`: NumPy keeps the row-major flat data and infers
the middle dimension as `len / r`; it raises (here `none`) when `r` is `0`
or does not divide the element count. -/
def reshapeRnn (a : NpData) (r : Nat) : Option NpData :=
  if r ≠ 0 ∧ a.data.length % r = 0 then
    some ⟨[r, a.data.length / r, 1], a.data⟩
  else none

/-- `a.shape[0]`. -/
def shape0 (a : NpData) : Nat := a.shape.headD 0

/-- The recurrent-network cell's
`x_train_rnn = x_train.reshape((x_train.shape[0], -1, 1))`. -/
def x_train_rnn (x_train : NpData) : Option NpData :=
  reshapeRnn x_train (shape0 x_train)

/-- The recurrent-network cell's
`x_test_rnn = x_train.reshape((x_test.shape[0], -1, 1))` — note the base
array is `x_train`, only the leading dimension comes from `x_test`. -/
def x_test_rnn (x_train x_test : NpData) : Option NpData :=
  reshapeRnn x_train (shape0 x_test)

/-- The arguments the cell passes to `model.evaluate(x_test_rnn, y_test)`. -/
def evaluateArgs (x_train x_test y_test : NpData) :
    Option NpData × NpData :=
  (x_test_rnn x_train x_test, y_test)

/-- C8: `x_test_rnn` is reshaped from `x_train`, not `x_test`: two runs
whose `x_test` differ only in pixel values (same shape) produce the same
`x_test_rnn`; whenever the reshape succeeds its flat data is exactly
`x_train`'s pixels; and `model.evaluate` therefore scores those reshaped
training pixels against the test labels `y_test`. -/
theorem x_test_rnn_from_train (x_train x_test1 x_test2 y_test : NpData)
    (hshape : x_test1.shape = x_test2.shape) :
    x_test_rnn x_train x_test1 = x_test_rnn x_train x_test2 ∧
    (∀ r : NpData, x_test_rnn x_train x_test1 = some r →
      r.data = x_train.data) ∧
    evaluateArgs x_train x_test1 y_test =
      (x_test_rnn x_train x_test1, y_test) := by
  refine ⟨by simp only [x_test_rnn, shape0, hshape], ?_, rfl⟩
  intro r hr
  rw [x_test_rnn, reshapeRnn] at hr
  by_cases hc : shape0 x_test1 ≠ 0 ∧
      x_train.data.length % shape0 x_test1 = 0
  · rw [if_pos hc] at hr
    cases hr
    rfl
  · rw [if_neg hc] at hr
    cases hr

/-- Witness for `x_test_rnn_from_train`: `x_train` with 4 pixels, two test
arrays of shape `[2, 2]` with different pixels; `x_test_rnn` is the same
for both and carries `x_train`'s pixels. -/
theorem x_test_rnn_from_train_witness :
    x_test_rnn ⟨[2, 2], [1, 2, 3, 4]⟩ ⟨[2, 2], [5, 6, 7, 8]⟩ =
      x_test_rnn ⟨[2, 2], [1, 2, 3, 4]⟩ ⟨[2, 2], [0, 0, 0, 0]⟩ ∧
    (⟨[2, 2, 1], [1, 2, 3, 4]⟩ : NpData).data =
      (⟨[2, 2], [1, 2, 3, 4]⟩ : NpData).data := by
  have h := x_test_rnn_from_train ⟨[2, 2], [1, 2, 3, 4]⟩
    ⟨[2, 2], [5, 6, 7, 8]⟩ ⟨[2, 2], [0, 0, 0, 0]⟩ ⟨[2], [0, 1]⟩ rfl
  exact ⟨h.1, h.2.1 ⟨[2, 2, 1], [1, 2, 3, 4]⟩ rfl⟩

/-- C10: after `x_train, x_test = x_train / 255.0, x_test / 255.0`, every
entry of both arrays lies in `[0, 1]`, provided every raw pixel returned by
the loader lies in `[0, 255]` (over exact rationals). -/
theorem normalize_unit_interval (x_train x_test : NpData)
    (htr : ∀ p ∈ x_train.data, 0 ≤ p ∧ p ≤ 255)
    (hte : ∀ p ∈ x_test.data, 0 ≤ p ∧ p ≤ 255) :
    (∀ q ∈ (normalizePixels x_train).data, 0 ≤ q ∧ q ≤ 1) ∧
    (∀ q ∈ (normalizePixels x_test).data, 0 ≤ q ∧ q ≤ 1) := by
  have key : ∀ (a : NpData), (∀ p ∈ a.data, 0 ≤ p ∧ p ≤ 255) →
      ∀ q ∈ (normalizePixels a).data, 0 ≤ q ∧ q ≤ 1 := by
    intro a ha q hq
    rw [normalizePixels] at hq
    obtain ⟨p, hp, hpq⟩ := List.mem_map.mp hq
    obtain ⟨h0, h255⟩ := ha p hp
    subst hpq
    constructor
    · positivity
    · rw [div_le_one (by norm_num)]
      exact h255
  exact ⟨key x_train htr, key x_test hte⟩

/-- Witness for `normalize_unit_interval` on concrete pixel arrays holding
the extreme raw values 0 and 255, instantiated at the normalized entry
`255/255`. -/
theorem normalize_unit_interval_witness :
    0 ≤ (255 : ℚ) / 255 ∧ (255 : ℚ) / 255 ≤ 1 :=
  (normalize_unit_interval ⟨[2], [0, 255]⟩ ⟨[1], [128]⟩
    (by
      intro p hp
      rcases List.mem_pair.mp hp with rfl | rfl <;> norm_num)
    (by
      intro p hp
      rcases List.mem_singleton.mp hp with rfl
      norm_num)).1 ((255 : ℚ) / 255)
    (by
      show (255 : ℚ) / 255 ∈ [(0 : ℚ) / 255, (255 : ℚ) / 255]
      exact List.mem_cons_of_mem _ (List.mem_singleton.mpr rfl))
